import Mathlib

/-!
Verification of the TradeRiskManagmentSolution core.

Shallow embedding of `traderiskmangment.py`: a Black–Scholes forward-price
option pricer (`BlackScholeForwardPrice`) and a two-currency one-day
historical VaR calculator (`VaRCalculation`), together with the dynamic
typing and validation behaviour of their constructors.

Python scalars are modelled over `ℝ`, numpy 1-D arrays as `List ℝ`, and the
dynamically typed constructor arguments as an inductive `PyVal`.  Calendar
dates (produced by `datetime.strptime(value, "%Y-%m-%d")`) are modelled by
`PyDate` with a day-count function matching `(d2 - d1).days`.
-/

namespace TradeRisk

/-- A dynamically typed Python value, as far as the two constructors can
observe one: a string, an `int`, a `float`, a `bool` (which `isinstance`
treats as an `int`, since `bool` is a subclass of `int`), a numpy `ndarray`
of floats, or anything else (`none` stands for every non-accepted value). -/
inductive PyVal where
  | str (s : String)
  | int (n : ℤ)
  | float (x : ℝ)
  | bool (b : Bool)
  | ndarray (xs : List ℝ)
  | none

/-- The kinds of failure the embedded operations can surface.
`invalidInput` is the `ValueError` raised by the `_validate_*` helpers at
construction; the other three are the raw arithmetic / indexing / shape
failures of the underlying operations (a zero denominator producing an
undefined float result, a list index out of range, a numpy broadcast
mismatch). -/
inductive PyErr where
  | invalidInput
  | indexError
  | broadcastError
  | divByZero
deriving DecidableEq

/-! ## Calendar dates (`datetime.date` arithmetic) -/

/-- A calendar date as produced by `datetime.strptime(value, "%Y-%m-%d")`. -/
structure PyDate where
  year : ℕ
  month : ℕ
  day : ℕ
deriving DecidableEq

/-- Gregorian leap-year test, as in `calendar.isleap`. -/
def isLeap (y : ℕ) : Bool :=
  (y % 4 == 0 && y % 100 != 0) || (y % 400 == 0)

/-- Days in month `m` given the leap flag of the year. -/
def daysInMonthB (leap : Bool) (m : ℕ) : ℕ :=
  if m = 2 then (if leap then 29 else 28)
  else if m = 4 ∨ m = 6 ∨ m = 9 ∨ m = 11 then 30
  else 31

/-- Days in month `m` of year `y`. -/
def daysInMonth (y m : ℕ) : ℕ := daysInMonthB (isLeap y) m

/-- Cumulative number of days before month `m` in a year with leap flag
`leap` (so `cumDays leap 1 = 0`, `cumDays leap 3 = 59` or `60`, ...). -/
def cumDays (leap : Bool) (m : ℕ) : ℕ :=
  (match m with
   | 1 => 0 | 2 => 31 | 3 => 59 | 4 => 90 | 5 => 120 | 6 => 151 | 7 => 181
   | 8 => 212 | 9 => 243 | 10 => 273 | 11 => 304 | _ => 334)
  + (if leap ∧ 3 ≤ m then 1 else 0)

/-- Number of leap years in `1, ..., y - 1`. -/
def leapsBefore (y : ℕ) : ℕ :=
  (y - 1) / 4 + (y - 1) / 400 - (y - 1) / 100

/-- Proleptic-Gregorian day number of a date (day 1 = 0001-01-01), so that
Python's `(e - t).days` is `toDayNat e - toDayNat t`. -/
def toDayNat (d : PyDate) : ℕ :=
  365 * (d.year - 1) + leapsBefore d.year + cumDays (isLeap d.year) d.month + d.day

/-- Signed day number, for date differences. -/
def toDayNumber (d : PyDate) : ℤ := (toDayNat d : ℤ)

/-- The valid dates: exactly those `datetime.date` accepts
(`MINYEAR = 1`, `MAXYEAR = 9999`, day within the month). -/
def ValidDate (d : PyDate) : Prop :=
  1 ≤ d.year ∧ d.year ≤ 9999 ∧ 1 ≤ d.month ∧ d.month ≤ 12 ∧
    1 ≤ d.day ∧ d.day ≤ daysInMonth d.year d.month

instance (d : PyDate) : Decidable (ValidDate d) := by
  unfold ValidDate; infer_instance

/-- Strict calendar order on dates (lexicographic on year, month, day). -/
def DateLt (a b : PyDate) : Prop :=
  a.year < b.year ∨
    (a.year = b.year ∧ (a.month < b.month ∨ (a.month = b.month ∧ a.day < b.day)))

instance (a b : PyDate) : Decidable (DateLt a b) := by
  unfold DateLt; infer_instance

/-! ## Parsing `"%Y-%m-%d"` (CPython `_strptime`)

CPython's `_strptime` turns the format `"%Y-%m-%d"` into the regex
`(?P<Y>\d\d\d\d)\-(?P<m>1[0-2]|0[1-9]|[1-9])\-(?P<d>3[01]|[12]\d|0[1-9]|[1-9])`
(exactly four year digits, one or two month/day digits) and requires the
whole string to be consumed; `datetime` then rejects days that do not exist
in the month.  The parser below mirrors that: split on `'-'`, check digit
counts and ranges, then check calendar validity. -/

/-- Split a character list on `'-'` (like `re` consuming the literal dashes
of the format). -/
def splitDash (cs : List Char) : List (List Char) :=
  match cs with
  | [] => [[]]
  | c :: rest =>
    match splitDash rest with
    | [] => [[]]
    | g :: gs => if c = '-' then [] :: g :: gs else (c :: g) :: gs

/-- Numeric value of a digit string; `none` if any character is not `0`-`9`. -/
def digitsVal (cs : List Char) : Option ℕ :=
  cs.foldl (fun acc c =>
    acc.bind (fun n => if c.isDigit then some (10 * n + (c.toNat - 48)) else Option.none))
    (some 0)

/-- `datetime.strptime(s, "%Y-%m-%d")`, returning `none` exactly when
CPython raises (bad shape, bad ranges, or an invalid calendar date). -/
def parseDate (s : String) : Option PyDate :=
  match splitDash s.data with
  | [ys, ms, ds] =>
    if ys.length = 4 ∧ (ms.length = 1 ∨ ms.length = 2) ∧
        (ds.length = 1 ∨ ds.length = 2) then
      match digitsVal ys, digitsVal ms, digitsVal ds with
      | some y, some m, some d =>
        -- four digits bound the year by 9999; `datetime` further needs `1 ≤ y`
        if 1 ≤ y ∧ y ≤ 9999 ∧ 1 ≤ m ∧ m ≤ 12 ∧ 1 ≤ d ∧ d ≤ daysInMonth y m then
          some ⟨y, m, d⟩
        else Option.none
      | _, _, _ => Option.none
    else Option.none
  | _ => Option.none

/-! ## `BlackScholeForwardPrice` -/

/-- The state of a validated `BlackScholeForwardPrice` instance (its
`self.*` attributes after `__init__`). -/
structure BlackScholeForwardPrice where
  trade_date : PyDate
  expiry_date : PyDate
  stock_price : ℝ
  strike_price : ℝ
  risk_free : ℝ
  sigma : ℝ

/-- `BlackScholeForwardPrice._validate_date`: a non-string raises
`ValueError`, and so does a string `strptime` cannot parse. -/
def bs_validate_date (v : PyVal) : Except PyErr PyDate :=
  match v with
  | .str s =>
    match parseDate s with
    | some d => .ok d
    | Option.none => .error .invalidInput
  | _ => .error .invalidInput

/-- `BlackScholeForwardPrice._validate_float`: `isinstance(value, (int, float))`.
A `bool` passes, because in Python `bool` is a subclass of `int`
(`True` counts as `1`, `False` as `0`). -/
noncomputable def bs_validate_float (v : PyVal) : Except PyErr ℝ :=
  match v with
  | .int n => .ok (n : ℝ)
  | .float x => .ok x
  | .bool b => .ok (if b then 1 else 0)
  | _ => .error .invalidInput

/-- `BlackScholeForwardPrice.__init__`, validating the six arguments in
source order; the first failing validator raises. -/
noncomputable def mkBlackScholeForwardPrice
    (trade_date expiry_date stock_price strike_price risk_free sigma : PyVal) :
    Except PyErr BlackScholeForwardPrice :=
  (bs_validate_date trade_date).bind fun td =>
    (bs_validate_date expiry_date).bind fun ed =>
      (bs_validate_float stock_price).bind fun sp =>
        (bs_validate_float strike_price).bind fun st =>
          (bs_validate_float risk_free).bind fun rf =>
            (bs_validate_float sigma).bind fun sg =>
              .ok ⟨td, ed, sp, st, rf, sg⟩

/-- `time_to_expiration`: `(self.expiry_date - self.trade_date).days / 365`. -/
noncomputable def time_to_expiration (b : BlackScholeForwardPrice) : ℝ :=
  ((toDayNumber b.expiry_date - toDayNumber b.trade_date : ℤ) : ℝ) / 365

/-- The standard normal cumulative distribution function, `scipy.stats.norm.cdf`. -/
noncomputable def normCdf (x : ℝ) : ℝ :=
  (Real.sqrt (2 * Real.pi))⁻¹ * ∫ t in Set.Iic x, Real.exp (-(t ^ 2 / 2))

/-- `forward_price`: `self.stock_price * np.exp(self.risk_free * self.time_to_expiration())`. -/
noncomputable def forward_price (b : BlackScholeForwardPrice) : ℝ :=
  b.stock_price * Real.exp (b.risk_free * time_to_expiration b)

/-- `d1`: `(np.log(forward/strike) + (sigma**2/2)*tte) / (sigma*np.sqrt(tte))`. -/
noncomputable def d1 (b : BlackScholeForwardPrice) : ℝ :=
  (Real.log (forward_price b / b.strike_price) +
      b.sigma ^ 2 / 2 * time_to_expiration b) /
    (b.sigma * Real.sqrt (time_to_expiration b))

/-- `d2`: `d1 - sigma * np.sqrt(tte)`. -/
noncomputable def d2 (b : BlackScholeForwardPrice) : ℝ :=
  d1 b - b.sigma * Real.sqrt (time_to_expiration b)

/-- `call_options`:
`np.exp(-r*tte) * (forward * norm.cdf(d1) - strike * norm.cdf(d2))`. -/
noncomputable def call_options (b : BlackScholeForwardPrice) : ℝ :=
  Real.exp (-b.risk_free * time_to_expiration b) *
    (forward_price b * normCdf (d1 b) - b.strike_price * normCdf (d2 b))

/-- `put_options`:
`call_options() - stock_price + strike_price * np.exp(-r*tte)`. -/
noncomputable def put_options (b : BlackScholeForwardPrice) : ℝ :=
  call_options b - b.stock_price + b.strike_price *
    Real.exp (-b.risk_free * time_to_expiration b)

/-- `d1` with the raw float degeneracy made explicit: when the denominator
`sigma * np.sqrt(tte)` is zero, the Python code performs a float division
by zero (an undefined `inf`/`nan` result, not a validation error). -/
noncomputable def d1_checked (b : BlackScholeForwardPrice) : Except PyErr ℝ :=
  if b.sigma * Real.sqrt (time_to_expiration b) = 0 then .error .divByZero
  else .ok (d1 b)

/-! ## `VaRCalculation` -/

/-- The state of a validated `VaRCalculation` instance. -/
structure VaRCalculation where
  market_rate_1 : List ℝ
  market_rate_2 : List ℝ
  spot_price_1 : ℝ
  spot_price_2 : ℝ

/-- `VaRCalculation._validate_array`: `isinstance(value, np.ndarray)`. -/
def var_validate_array (v : PyVal) : Except PyErr (List ℝ) :=
  match v with
  | .ndarray xs => .ok xs
  | _ => .error .invalidInput

/-- `VaRCalculation._validate_float`: same `isinstance(value, (int, float))`
check as the option pricer (so `bool` again passes). -/
noncomputable def var_validate_float (v : PyVal) : Except PyErr ℝ :=
  match v with
  | .int n => .ok (n : ℝ)
  | .float x => .ok x
  | .bool b => .ok (if b then 1 else 0)
  | _ => .error .invalidInput

/-- `VaRCalculation.__init__`, validating the four arguments in source
order.  Note it never compares the two series' lengths. -/
noncomputable def mkVaRCalculation
    (market_rate_1 market_rate_2 spot_price_1 spot_price_2 : PyVal) :
    Except PyErr VaRCalculation :=
  (var_validate_array market_rate_1).bind fun r1 =>
    (var_validate_array market_rate_2).bind fun r2 =>
      (var_validate_float spot_price_1).bind fun s1 =>
        (var_validate_float spot_price_2).bind fun s2 =>
          .ok ⟨r1, r2, s1, s2⟩

/-- `pnl_vector`: `(np.exp(np.log(market_rate[:-1] / market_rate[1:])) - 1) * spot_price`.
`market_rate[:-1]` is `dropLast`, `market_rate[1:]` is `tail`; both slices
have length `n - 1`, so their element-wise quotient pairs `r[i]` with `r[i+1]`. -/
noncomputable def pnl_vector (spot_price : ℝ) (market_rate : List ℝ) : List ℝ :=
  List.zipWith (fun a b => (Real.exp (Real.log (a / b)) - 1) * spot_price)
    market_rate.dropLast market_rate.tail

/-- numpy addition of two 1-D arrays: equal lengths add element-wise, a
length-1 array broadcasts against the other, and any other shape pair
raises a broadcast `ValueError`. -/
noncomputable def npAdd (xs ys : List ℝ) : Except PyErr (List ℝ) :=
  if xs.length = ys.length then .ok (List.zipWith (· + ·) xs ys)
  else if xs.length = 1 then .ok (ys.map (fun y => xs.headI + y))
  else if ys.length = 1 then .ok (xs.map (fun x => x + ys.headI))
  else .error .broadcastError

/-- `np.sort` on a 1-D array: ascending sort. -/
noncomputable def npSort (xs : List ℝ) : List ℝ :=
  xs.insertionSort (· ≤ ·)

/-- `total_pnl`: `np.sort(pnl_vector(spot_1, rate_1) + pnl_vector(spot_2, rate_2))`. -/
noncomputable def total_pnl (v : VaRCalculation) : Except PyErr (List ℝ) :=
  (npAdd (pnl_vector v.spot_price_1 v.market_rate_1)
      (pnl_vector v.spot_price_2 v.market_rate_2)).map npSort

/-- `var_cal_oneday`: `0.4 * total_pnl()[1] + 0.6 * total_pnl()[2]`; an index
past the end of the combined vector raises `IndexError`. -/
noncomputable def var_cal_oneday (v : VaRCalculation) : Except PyErr ℝ :=
  match total_pnl v with
  | .error e => .error e
  | .ok l =>
    match l[1]?, l[2]? with
    | some a, some b => .ok (0.4 * a + 0.6 * b)
    | _, _ => .error .indexError

/-! ## Argument-shape predicates -/

/-- A value `isinstance(value, (int, float))` accepts (so also `bool`). -/
def isNumericVal : PyVal → Bool
  | .int _ => true
  | .float _ => true
  | .bool _ => true
  | _ => false

/-- A string argument that `strptime(value, "%Y-%m-%d")` parses. -/
def parsesAsDate : PyVal → Bool
  | .str s => (parseDate s).isSome
  | _ => false

/-- A value `isinstance(value, np.ndarray)` accepts. -/
def isNdarrayVal : PyVal → Bool
  | .ndarray _ => true
  | _ => false

/-! ## Validator characterizations -/

theorem bs_validate_date_ok_iff (v : PyVal) :
    (∃ d, bs_validate_date v = .ok d) ↔ parsesAsDate v = true := by
  cases v <;> simp [bs_validate_date, parsesAsDate]
  rename_i s
  cases h : parseDate s <;> simp [h, Option.isSome]

theorem bs_validate_float_ok_iff (v : PyVal) :
    (∃ x, bs_validate_float v = .ok x) ↔ isNumericVal v = true := by
  cases v <;> simp [bs_validate_float, isNumericVal]

theorem var_validate_array_ok_iff (v : PyVal) :
    (∃ xs, var_validate_array v = .ok xs) ↔ isNdarrayVal v = true := by
  cases v <;> simp [var_validate_array, isNdarrayVal]

theorem var_validate_float_ok_iff (v : PyVal) :
    (∃ x, var_validate_float v = .ok x) ↔ isNumericVal v = true := by
  cases v <;> simp [var_validate_float, isNumericVal]

theorem except_bind_ok {α β : Type} (x : Except PyErr α) (f : α → Except PyErr β) (c : β) :
    x.bind f = .ok c ↔ ∃ a, x = .ok a ∧ f a = .ok c := by
  cases x <;> simp [Except.bind]

theorem except_bind_error {α β : Type} (x : Except PyErr α) (f : α → Except PyErr β)
    (e : PyErr) :
    x.bind f = .error e ↔ x = .error e ∨ ∃ a, x = .ok a ∧ f a = .error e := by
  cases x <;> simp [Except.bind]

theorem bs_validate_date_error (v : PyVal) (e : PyErr) :
    bs_validate_date v = .error e → e = .invalidInput := by
  cases v <;> simp [bs_validate_date] <;> try (intro h'; exact h'.symm)
  rename_i s
  cases h : parseDate s <;> simp [h]
  intro h'
  exact h'.symm

theorem bs_validate_float_error (v : PyVal) (e : PyErr) :
    bs_validate_float v = .error e → e = .invalidInput := by
  cases v <;> simp [bs_validate_float] <;> intro h <;> exact h.symm

theorem var_validate_array_error (v : PyVal) (e : PyErr) :
    var_validate_array v = .error e → e = .invalidInput := by
  cases v <;> simp [var_validate_array] <;> intro h <;> exact h.symm

theorem var_validate_float_error (v : PyVal) (e : PyErr) :
    var_validate_float v = .error e → e = .invalidInput := by
  cases v <;> simp [var_validate_float] <;> intro h <;> exact h.symm

/-! ## P&L vector lemmas -/

/-- The spec's simplified form of the P&L vector:
`(rate_series[i] / rate_series[i+1] - 1) * holding_value`. -/
noncomputable def pnl_vector_simplified (spot_price : ℝ) (market_rate : List ℝ) : List ℝ :=
  List.zipWith (fun a b => (a / b - 1) * spot_price)
    market_rate.dropLast market_rate.tail

theorem zipWith_congr_of_mem (f g : ℝ → ℝ → ℝ) :
    ∀ (l₁ l₂ : List ℝ), (∀ a ∈ l₁, ∀ b ∈ l₂, f a b = g a b) →
      List.zipWith f l₁ l₂ = List.zipWith g l₁ l₂ := by
  intro l₁
  induction l₁ with
  | nil => intro l₂ _; simp
  | cons a t ih =>
    intro l₂ h
    cases l₂ with
    | nil => simp
    | cons b t₂ =>
      simp only [List.zipWith_cons_cons]
      refine congrArg₂ _ (h a (by simp) b (by simp)) (ih t₂ ?_)
      intro x hx y hy
      exact h x (by simp [hx]) y (by simp [hy])

theorem pnl_vector_length (h : ℝ) (r : List ℝ) :
    (pnl_vector h r).length = r.length - 1 := by
  simp [pnl_vector]

/-! ## Theorems for the individual claims -/

/-- C2: put–call parity holds exactly, by construction: for every instance,
`put_price() = call_price() - spot_price + strike_price * exp(-risk_free_rate * time_to_expiry())`. -/
theorem put_call_parity (b : BlackScholeForwardPrice) :
    put_options b = call_options b - b.stock_price +
      b.strike_price * Real.exp (-(b.risk_free * time_to_expiration b)) := by
  simp [put_options, neg_mul]

/-- C4: for a rate series of positive reals, `pnl_vector` has length
`n - 1` and, over exact real arithmetic, the `exp (ln (r i / r (i+1)))`
round trip is inert: the vector equals the simplified
`(r i / r (i+1) - 1) * holding_value` form. -/
theorem pnl_vector_simplification (h : ℝ) (r : List ℝ)
    (hn : 1 ≤ r.length) (hr : ∀ x ∈ r, 0 < x) :
    (pnl_vector h r).length = r.length - 1 ∧
      pnl_vector h r = pnl_vector_simplified h r := by
  refine ⟨pnl_vector_length h r, ?_⟩
  unfold pnl_vector pnl_vector_simplified
  apply zipWith_congr_of_mem
  intro a ha b hb
  have ha' : 0 < a := hr a (List.dropLast_subset r ha)
  have hb' : 0 < b := hr b (List.tail_subset r hb)
  rw [Real.exp_log (div_pos ha' hb')]

/-- Witness for C4 at `holding_value = 3`, `rate_series = [2, 1]`. -/
theorem pnl_vector_simplification_witness :
    1 ≤ ([(2 : ℝ), 1] : List ℝ).length ∧ (∀ x ∈ [(2 : ℝ), 1], 0 < x) ∧
      ((pnl_vector 3 [2, 1]).length = 1 ∧
        pnl_vector 3 [2, 1] = pnl_vector_simplified 3 [2, 1]) :=
  ⟨by norm_num, by norm_num,
    pnl_vector_simplification 3 [2, 1] (by norm_num) (by norm_num)⟩

/-- C1: for equal-length rate series of positive reals with `n ≥ 4`
observations each, `var_cal_oneday` returns `0.4 * p1 + 0.6 * p2` where
`[p0, p1, p2, ...]` is the ascending sort of the element-wise sum of the
two per-currency P&L vectors. -/
theorem var_cal_oneday_weighted_order_stats
    (v : VaRCalculation) (n : ℕ)
    (hn1 : v.market_rate_1.length = n) (hn2 : v.market_rate_2.length = n)
    (hn : 4 ≤ n)
    (hpos1 : ∀ x ∈ v.market_rate_1, (0 : ℝ) < x)
    (hpos2 : ∀ x ∈ v.market_rate_2, (0 : ℝ) < x) :
    ∃ s : List ℝ,
      s.Perm (List.zipWith (· + ·)
        (pnl_vector v.spot_price_1 v.market_rate_1)
        (pnl_vector v.spot_price_2 v.market_rate_2)) ∧
      s.Sorted (· ≤ ·) ∧
      ∃ (hs1 : 1 < s.length) (hs2 : 2 < s.length),
        var_cal_oneday v = .ok (0.4 * s.get ⟨1, hs1⟩ + 0.6 * s.get ⟨2, hs2⟩) := by
  have l1 : (pnl_vector v.spot_price_1 v.market_rate_1).length = n - 1 := by
    rw [pnl_vector_length, hn1]
  have l2 : (pnl_vector v.spot_price_2 v.market_rate_2).length = n - 1 := by
    rw [pnl_vector_length, hn2]
  set sum := List.zipWith (· + ·)
    (pnl_vector v.spot_price_1 v.market_rate_1)
    (pnl_vector v.spot_price_2 v.market_rate_2) with hsumd
  have hsum : sum.length = n - 1 := by
    rw [hsumd, List.length_zipWith, l1, l2, min_self]
  have htot : total_pnl v = .ok (npSort sum) := by
    unfold total_pnl npAdd
    rw [l1, l2]
    simp [hsumd, Except.map]
  have hslen : (npSort sum).length = sum.length :=
    (List.perm_insertionSort _ sum).length_eq
  have hs1 : 1 < (npSort sum).length := by omega
  have hs2 : 2 < (npSort sum).length := by omega
  refine ⟨npSort sum, List.perm_insertionSort _ sum,
    List.sorted_insertionSort _ sum, hs1, hs2, ?_⟩
  unfold var_cal_oneday
  rw [htot]
  simp [List.getElem?_eq_getElem hs1, List.getElem?_eq_getElem hs2,
    List.get_eq_getElem]

/-- Witness for C1: two length-4 positive series. -/
theorem var_cal_oneday_weighted_order_stats_witness :
    (∀ x ∈ [(8 : ℝ), 4, 2, 1], (0 : ℝ) < x) ∧
      (∃ s : List ℝ,
        s.Perm (List.zipWith (· + ·)
          (pnl_vector (1 : ℝ) [(8 : ℝ), 4, 2, 1])
          (pnl_vector (0 : ℝ) [(1 : ℝ), 1, 1, 1])) ∧
        s.Sorted (· ≤ ·) ∧
        ∃ (hs1 : 1 < s.length) (hs2 : 2 < s.length),
          var_cal_oneday ⟨[8, 4, 2, 1], [1, 1, 1, 1], 1, 0⟩ =
            .ok (0.4 * s.get ⟨1, hs1⟩ + 0.6 * s.get ⟨2, hs2⟩)) :=
  ⟨by norm_num,
    var_cal_oneday_weighted_order_stats ⟨[8, 4, 2, 1], [1, 1, 1, 1], 1, 0⟩ 4
      rfl rfl (by norm_num) (by norm_num) (by norm_num)⟩

/-- C5: `BlackScholeForwardPrice` construction fails (and then only with
`InvalidInput`) iff a date argument is not a string parsing under
`"%Y-%m-%d"` or a scalar argument is not numeric; for valid date strings it
succeeds at all real scalar values — zero and negative included — storing
them unchanged (no range checks). -/
theorem bs_construction_invalid_input_iff :
    (∀ td ed sp st rf sg : PyVal,
      (∃ b, mkBlackScholeForwardPrice td ed sp st rf sg = .ok b) ↔
        (parsesAsDate td = true ∧ parsesAsDate ed = true ∧
          isNumericVal sp = true ∧ isNumericVal st = true ∧
          isNumericVal rf = true ∧ isNumericVal sg = true)) ∧
    (∀ td ed sp st rf sg : PyVal, ∀ e : PyErr,
      mkBlackScholeForwardPrice td ed sp st rf sg = .error e → e = .invalidInput) ∧
    (∀ (s1 s2 : String) (da db : PyDate) (x1 x2 x3 x4 : ℝ),
      parseDate s1 = some da → parseDate s2 = some db →
      mkBlackScholeForwardPrice (.str s1) (.str s2)
          (.float x1) (.float x2) (.float x3) (.float x4) =
        .ok ⟨da, db, x1, x2, x3, x4⟩) := by
  refine ⟨?_, ?_, ?_⟩
  · intro td ed sp st rf sg
    unfold mkBlackScholeForwardPrice
    simp only [except_bind_ok, Except.ok.injEq, ← bs_validate_date_ok_iff,
      ← bs_validate_float_ok_iff]
    constructor
    · rintro ⟨b, a1, h1, a2, h2, a3, h3, a4, h4, a5, h5, a6, h6, -⟩
      exact ⟨⟨a1, h1⟩, ⟨a2, h2⟩, ⟨a3, h3⟩, ⟨a4, h4⟩, ⟨a5, h5⟩, ⟨a6, h6⟩⟩
    · rintro ⟨⟨a1, h1⟩, ⟨a2, h2⟩, ⟨a3, h3⟩, ⟨a4, h4⟩, ⟨a5, h5⟩, ⟨a6, h6⟩⟩
      exact ⟨⟨a1, a2, a3, a4, a5, a6⟩, a1, h1, a2, h2, a3, h3, a4, h4, a5, h5, a6, h6, rfl⟩
  · intro td ed sp st rf sg e h
    unfold mkBlackScholeForwardPrice at h
    rw [except_bind_error] at h
    rcases h with h | ⟨a1, -, h⟩
    · exact bs_validate_date_error _ _ h
    rw [except_bind_error] at h
    rcases h with h | ⟨a2, -, h⟩
    · exact bs_validate_date_error _ _ h
    rw [except_bind_error] at h
    rcases h with h | ⟨a3, -, h⟩
    · exact bs_validate_float_error _ _ h
    rw [except_bind_error] at h
    rcases h with h | ⟨a4, -, h⟩
    · exact bs_validate_float_error _ _ h
    rw [except_bind_error] at h
    rcases h with h | ⟨a5, -, h⟩
    · exact bs_validate_float_error _ _ h
    rw [except_bind_error] at h
    rcases h with h | ⟨a6, -, h⟩
    · exact bs_validate_float_error _ _ h
    exact absurd h (by simp)
  · intro s1 s2 da db x1 x2 x3 x4 h1 h2
    unfold mkBlackScholeForwardPrice
    simp [bs_validate_date, bs_validate_float, h1, h2, Except.bind]

/-- Witness for C5 at the fixture inputs, with a zero volatility and a
negative rate to exercise the absence of range checks. -/
theorem bs_construction_invalid_input_iff_witness :
    parseDate "2022-11-23" = some ⟨2022, 11, 23⟩ ∧
      mkBlackScholeForwardPrice (.str "2022-11-23") (.str "2023-05-10")
          (.float 19) (.float 0) (.float (-0.005)) (.float 0) =
        .ok ⟨⟨2022, 11, 23⟩, ⟨2023, 5, 10⟩, 19, 0, -0.005, 0⟩ :=
  ⟨by decide,
    bs_construction_invalid_input_iff.2.2 "2022-11-23" "2023-05-10"
      ⟨2022, 11, 23⟩ ⟨2023, 5, 10⟩ 19 0 (-0.005) 0 (by decide) (by decide)⟩

/-- C6: `VaRCalculation` construction fails (and then only with
`InvalidInput`) iff a rate-series argument is not an ndarray or a holding
value is not numeric; in particular it succeeds for any two ndarrays,
of unequal length included — no length-equality check is performed. -/
theorem var_construction_invalid_input_iff :
    (∀ r1 r2 h1 h2 : PyVal,
      (∃ v, mkVaRCalculation r1 r2 h1 h2 = .ok v) ↔
        (isNdarrayVal r1 = true ∧ isNdarrayVal r2 = true ∧
          isNumericVal h1 = true ∧ isNumericVal h2 = true)) ∧
    (∀ r1 r2 h1 h2 : PyVal, ∀ e : PyErr,
      mkVaRCalculation r1 r2 h1 h2 = .error e → e = .invalidInput) ∧
    (∀ (xs ys : List ℝ) (a b : ℝ),
      mkVaRCalculation (.ndarray xs) (.ndarray ys) (.float a) (.float b) =
        .ok ⟨xs, ys, a, b⟩) := by
  refine ⟨?_, ?_, ?_⟩
  · intro r1 r2 h1 h2
    unfold mkVaRCalculation
    simp only [except_bind_ok, Except.ok.injEq, ← var_validate_array_ok_iff,
      ← var_validate_float_ok_iff]
    constructor
    · rintro ⟨v, a1, h1, a2, h2, a3, h3, a4, h4, -⟩
      exact ⟨⟨a1, h1⟩, ⟨a2, h2⟩, ⟨a3, h3⟩, ⟨a4, h4⟩⟩
    · rintro ⟨⟨a1, h1⟩, ⟨a2, h2⟩, ⟨a3, h3⟩, ⟨a4, h4⟩⟩
      exact ⟨⟨a1, a2, a3, a4⟩, a1, h1, a2, h2, a3, h3, a4, h4, rfl⟩
  · intro r1 r2 h1 h2 e h
    unfold mkVaRCalculation at h
    rw [except_bind_error] at h
    rcases h with h | ⟨a1, -, h⟩
    · exact var_validate_array_error _ _ h
    rw [except_bind_error] at h
    rcases h with h | ⟨a2, -, h⟩
    · exact var_validate_array_error _ _ h
    rw [except_bind_error] at h
    rcases h with h | ⟨a3, -, h⟩
    · exact var_validate_float_error _ _ h
    rw [except_bind_error] at h
    rcases h with h | ⟨a4, -, h⟩
    · exact var_validate_float_error _ _ h
    exact absurd h (by simp)
  · intro xs ys a b
    simp [mkVaRCalculation, var_validate_array, var_validate_float, Except.bind]

/-- Witness for C6: construction succeeds on ndarrays of unequal length
(2 and 1), and a non-ndarray first argument yields exactly `InvalidInput`. -/
theorem var_construction_invalid_input_iff_witness :
    (∃ v, mkVaRCalculation (.ndarray [1, 2]) (.ndarray [1]) (.int 3) (.bool true) =
      .ok v) ∧
      mkVaRCalculation (.float 1) (.ndarray [1]) (.float 1) (.float 2) =
        .error .invalidInput :=
  ⟨(var_construction_invalid_input_iff.1 (.ndarray [1, 2]) (.ndarray [1])
      (.int 3) (.bool true)).2 ⟨rfl, rfl, rfl, rfl⟩,
    var_construction_invalid_input_iff.2.1 (.float 1) (.ndarray [1]) (.float 1)
        (.float 2) .invalidInput rfl ▸ rfl⟩

/-- C10: a Python `bool` passes the numeric validation of both calculators
(`bool` is a subclass of `int`), with `True` stored as `1` and `False` as
`0`; construction therefore succeeds with boolean scalar arguments. -/
theorem bool_scalars_accepted :
    (∀ b : Bool, bs_validate_float (.bool b) = .ok (if b then 1 else 0)) ∧
    (∀ b : Bool, var_validate_float (.bool b) = .ok (if b then 1 else 0)) ∧
    mkBlackScholeForwardPrice (.str "2022-11-23") (.str "2023-05-10")
        (.bool true) (.bool false) (.bool true) (.bool false) =
      .ok ⟨⟨2022, 11, 23⟩, ⟨2023, 5, 10⟩, 1, 0, 1, 0⟩ ∧
    mkVaRCalculation (.ndarray [1]) (.ndarray [1]) (.bool true) (.bool false) =
      .ok ⟨[1], [1], 1, 0⟩ := by
  refine ⟨fun b => rfl, fun b => rfl, ?_, ?_⟩
  · have h1 : parseDate "2022-11-23" = some ⟨2022, 11, 23⟩ := by decide
    have h2 : parseDate "2023-05-10" = some ⟨2023, 5, 10⟩ := by decide
    simp [mkBlackScholeForwardPrice, bs_validate_date, bs_validate_float,
      h1, h2, Except.bind]
  · simp [mkVaRCalculation, var_validate_array, var_validate_float, Except.bind]

theorem npAdd_error (xs ys : List ℝ) (e : PyErr) :
    npAdd xs ys = .error e → e = .broadcastError := by
  unfold npAdd
  split_ifs <;> simp <;> intro h <;> exact h.symm

/-- C7 counterexample: rate series of mismatched length (2 and 5) for which
no failure is propagated at all — the length-1 P&L vector of the first
series broadcasts against the length-4 one, and `var_cal_oneday` returns
an ordinary number. -/
theorem mismatched_lengths_can_succeed :
    ([(1 : ℝ), 1] : List ℝ).length ≠ ([(1 : ℝ), 1, 1, 1, 1] : List ℝ).length ∧
      var_cal_oneday ⟨[1, 1], [1, 1, 1, 1, 1], 1, 1⟩ = .ok 0 := by
  constructor
  · norm_num
  · norm_num [var_cal_oneday, total_pnl, npAdd, npSort, pnl_vector,
      Except.map, List.insertionSort, List.orderedInsert,
      Real.log_one, Real.exp_zero]

/-- C7 (amended): the arithmetic degeneracies are not validated and never
produce `InvalidInput`: a zero `d1` denominator is a raw float
division-by-zero; fewer than 3 combined P&L observations make
`one_day_var` fail with `IndexError`; rate series of mismatched length
propagate a numpy broadcast failure whenever neither P&L vector has
length 1 (a length-1 vector broadcasts instead of failing); and no
derived operation can ever surface `InvalidInput`. -/
theorem degeneracies_propagate_raw_failures :
    (∀ b : BlackScholeForwardPrice, time_to_expiration b = 0 →
      d1_checked b = .error .divByZero) ∧
    (∀ v : VaRCalculation, ∀ n : ℕ,
      v.market_rate_1.length = n → v.market_rate_2.length = n → n ≤ 3 →
      var_cal_oneday v = .error .indexError) ∧
    (∀ v : VaRCalculation,
      (pnl_vector v.spot_price_1 v.market_rate_1).length ≠
        (pnl_vector v.spot_price_2 v.market_rate_2).length →
      (pnl_vector v.spot_price_1 v.market_rate_1).length ≠ 1 →
      (pnl_vector v.spot_price_2 v.market_rate_2).length ≠ 1 →
      var_cal_oneday v = .error .broadcastError) ∧
    (∀ b : BlackScholeForwardPrice, d1_checked b ≠ .error .invalidInput) ∧
    (∀ v : VaRCalculation, var_cal_oneday v ≠ .error .invalidInput) := by
  refine ⟨?_, ?_, ?_, ?_, ?_⟩
  · intro b h
    simp [d1_checked, h]
  · intro v n h1 h2 hn
    have l1 : (pnl_vector v.spot_price_1 v.market_rate_1).length = n - 1 := by
      rw [pnl_vector_length, h1]
    have l2 : (pnl_vector v.spot_price_2 v.market_rate_2).length = n - 1 := by
      rw [pnl_vector_length, h2]
    have htot : total_pnl v = .ok (npSort (List.zipWith (· + ·)
        (pnl_vector v.spot_price_1 v.market_rate_1)
        (pnl_vector v.spot_price_2 v.market_rate_2))) := by
      unfold total_pnl npAdd
      rw [l1, l2]
      simp [Except.map]
    have hlen : (npSort (List.zipWith (· + ·)
        (pnl_vector v.spot_price_1 v.market_rate_1)
        (pnl_vector v.spot_price_2 v.market_rate_2))).length ≤ 2 := by
      unfold npSort
      rw [(List.perm_insertionSort _ _).length_eq, List.length_zipWith, l1, l2]
      omega
    have h2none : (npSort (List.zipWith (· + ·)
        (pnl_vector v.spot_price_1 v.market_rate_1)
        (pnl_vector v.spot_price_2 v.market_rate_2)))[2]? = Option.none := by
      rw [List.getElem?_eq_none_iff]
      omega
    unfold var_cal_oneday
    rw [htot]
    rcases h1' : (npSort (List.zipWith (· + ·)
        (pnl_vector v.spot_price_1 v.market_rate_1)
        (pnl_vector v.spot_price_2 v.market_rate_2)))[1]? <;>
      simp [h1', h2none]
  · intro v hne hx hy
    have hadd : npAdd (pnl_vector v.spot_price_1 v.market_rate_1)
        (pnl_vector v.spot_price_2 v.market_rate_2) = .error .broadcastError := by
      unfold npAdd
      rw [if_neg hne, if_neg hx, if_neg hy]
    unfold var_cal_oneday total_pnl
    rw [hadd]
    simp [Except.map]
  · intro b
    unfold d1_checked
    split_ifs <;> simp
  · intro v
    unfold var_cal_oneday
    rcases htot : total_pnl v with e | l
    · have : e = .broadcastError := by
        unfold total_pnl at htot
        rcases hadd : npAdd (pnl_vector v.spot_price_1 v.market_rate_1)
            (pnl_vector v.spot_price_2 v.market_rate_2) with e' | l'
        · rw [hadd] at htot
          simp [Except.map] at htot
          rw [← htot]
          exact npAdd_error _ _ _ hadd
        · rw [hadd] at htot
          simp [Except.map] at htot
      rw [this]
      simp
    · rcases h1' : l[1]? <;> rcases h2' : l[2]? <;> simp [h1', h2']

/-- Witness for C7's amended theorem: at `sigma = 0.3` and equal dates the
time to expiry is zero and `d1` hits the float division by zero. -/
theorem degeneracies_propagate_raw_failures_witness :
    time_to_expiration ⟨⟨2022, 11, 23⟩, ⟨2022, 11, 23⟩, 19, 17, 0.005, 0.3⟩ = 0 ∧
      d1_checked ⟨⟨2022, 11, 23⟩, ⟨2022, 11, 23⟩, 19, 17, 0.005, 0.3⟩ =
        .error .divByZero ∧
      var_cal_oneday ⟨[1, 2], [1, 2], 1, 1⟩ = .error .indexError ∧
      var_cal_oneday ⟨[1, 1, 1], [1, 1, 1, 1, 1, 1], 1, 1⟩ =
        .error .broadcastError := by
  have ht : time_to_expiration ⟨⟨2022, 11, 23⟩, ⟨2022, 11, 23⟩, 19, 17, 0.005, 0.3⟩ = 0 := by
    simp [time_to_expiration]
  refine ⟨ht, degeneracies_propagate_raw_failures.1 _ ht,
    degeneracies_propagate_raw_failures.2.1 ⟨[1, 2], [1, 2], 1, 1⟩ 2 rfl rfl
      (by norm_num), ?_⟩
  exact degeneracies_propagate_raw_failures.2.2.1 ⟨[1, 1, 1], [1, 1, 1, 1, 1, 1], 1, 1⟩
    (by simp [pnl_vector_length]) (by simp [pnl_vector_length])
    (by simp [pnl_vector_length])

/-- C8: writing a new value `s` into the spot field the pricing code reads
(`stock_price`) and recomputing is the same as constructing a fresh
instance with spot `s` and the other constructor arguments unchanged:
every derived quantity is recomputed from the current field state, with no
caching. -/
theorem stock_price_mutation_reprices
    (td ed sp st rf sg : PyVal) (b : BlackScholeForwardPrice) (s : ℝ)
    (hb : mkBlackScholeForwardPrice td ed sp st rf sg = .ok b) :
    ∃ b', mkBlackScholeForwardPrice td ed (.float s) st rf sg = .ok b' ∧
      b' = { b with stock_price := s } ∧
      forward_price b' = forward_price { b with stock_price := s } ∧
      d1 b' = d1 { b with stock_price := s } ∧
      d2 b' = d2 { b with stock_price := s } ∧
      call_options b' = call_options { b with stock_price := s } ∧
      put_options b' = put_options { b with stock_price := s } := by
  simp only [mkBlackScholeForwardPrice, except_bind_ok, Except.ok.injEq] at hb
  obtain ⟨a1, h1, a2, h2, a3, h3, a4, h4, a5, h5, a6, h6, hbeq⟩ := hb
  refine ⟨{ b with stock_price := s }, ?_, rfl, rfl, rfl, rfl, rfl, rfl⟩
  simp only [mkBlackScholeForwardPrice, except_bind_ok, Except.ok.injEq]
  exact ⟨a1, h1, a2, h2, s, rfl, a4, h4, a5, h5, a6, h6, by rw [← hbeq]⟩

/-- Witness for C8 at the test fixture: re-price the spot-19 instance at
spot 17. -/
theorem stock_price_mutation_reprices_witness :
    mkBlackScholeForwardPrice (.str "2022-11-23") (.str "2023-05-10")
        (.float 19) (.float 17) (.float 0.005) (.float 0.3) =
      .ok ⟨⟨2022, 11, 23⟩, ⟨2023, 5, 10⟩, 19, 17, 0.005, 0.3⟩ ∧
    ∃ b', mkBlackScholeForwardPrice (.str "2022-11-23") (.str "2023-05-10")
        (.float 17) (.float 17) (.float 0.005) (.float 0.3) = .ok b' ∧
      b' = { (⟨⟨2022, 11, 23⟩, ⟨2023, 5, 10⟩, 19, 17, 0.005, 0.3⟩ :
              BlackScholeForwardPrice) with stock_price := (17 : ℝ) } ∧
      forward_price b' = forward_price { (⟨⟨2022, 11, 23⟩, ⟨2023, 5, 10⟩, 19, 17,
        0.005, 0.3⟩ : BlackScholeForwardPrice) with stock_price := (17 : ℝ) } ∧
      d1 b' = d1 { (⟨⟨2022, 11, 23⟩, ⟨2023, 5, 10⟩, 19, 17,
        0.005, 0.3⟩ : BlackScholeForwardPrice) with stock_price := (17 : ℝ) } ∧
      d2 b' = d2 { (⟨⟨2022, 11, 23⟩, ⟨2023, 5, 10⟩, 19, 17,
        0.005, 0.3⟩ : BlackScholeForwardPrice) with stock_price := (17 : ℝ) } ∧
      call_options b' = call_options { (⟨⟨2022, 11, 23⟩, ⟨2023, 5, 10⟩, 19, 17,
        0.005, 0.3⟩ : BlackScholeForwardPrice) with stock_price := (17 : ℝ) } ∧
      put_options b' = put_options { (⟨⟨2022, 11, 23⟩, ⟨2023, 5, 10⟩, 19, 17,
        0.005, 0.3⟩ : BlackScholeForwardPrice) with stock_price := (17 : ℝ) } := by
  have hmk : mkBlackScholeForwardPrice (.str "2022-11-23") (.str "2023-05-10")
      (.float 19) (.float 17) (.float 0.005) (.float 0.3) =
      .ok ⟨⟨2022, 11, 23⟩, ⟨2023, 5, 10⟩, 19, 17, 0.005, 0.3⟩ := by
    have h1 : parseDate "2022-11-23" = some ⟨2022, 11, 23⟩ := by decide
    have h2 : parseDate "2023-05-10" = some ⟨2023, 5, 10⟩ := by decide
    simp [mkBlackScholeForwardPrice, bs_validate_date, bs_validate_float,
      h1, h2, Except.bind]
  exact ⟨hmk, stock_price_mutation_reprices _ _ _ _ _ _ _ 17 hmk⟩

/-! ## Calendar arithmetic: the day count respects calendar order -/

theorem cumDays_add_daysInMonthB : ∀ leap : Bool, ∀ m, m < 12 → 1 ≤ m →
    cumDays leap m + daysInMonthB leap m = cumDays leap (m + 1) := by decide

theorem cumDays_add_le_year : ∀ leap : Bool, ∀ m, m < 13 → 1 ≤ m →
    cumDays leap m + daysInMonthB leap m ≤ 365 + (if leap then 1 else 0) := by decide

theorem cumDays_month_mono : ∀ leap : Bool, ∀ mb, mb < 13 → ∀ ma, ma < mb → 1 ≤ ma →
    cumDays leap ma + daysInMonthB leap ma ≤ cumDays leap mb := by decide

theorem isLeap_iff (y : ℕ) : isLeap y = true ↔ ((4 ∣ y ∧ ¬(100 ∣ y)) ∨ 400 ∣ y) := by
  simp [isLeap, Nat.dvd_iff_mod_eq_zero]

theorem leapsBefore_succ (y : ℕ) (hy : 1 ≤ y) :
    leapsBefore (y + 1) = leapsBefore y + (if isLeap y then 1 else 0) := by
  obtain ⟨x, rfl⟩ : ∃ x, y = x + 1 := ⟨y - 1, by omega⟩
  unfold leapsBefore
  simp only [Nat.add_sub_cancel]
  rw [Nat.succ_div, Nat.succ_div, Nat.succ_div]
  have hba : x / 100 ≤ x / 4 := Nat.div_le_div_left (by norm_num) (by norm_num)
  have h100_4 : (100 : ℕ) ∣ x + 1 → 4 ∣ x + 1 := fun h => dvd_trans (by norm_num) h
  have h400_100 : (400 : ℕ) ∣ x + 1 → 100 ∣ x + 1 := fun h => dvd_trans (by norm_num) h
  by_cases h4 : 4 ∣ x + 1 <;> by_cases h100 : 100 ∣ x + 1 <;> by_cases h400 : 400 ∣ x + 1
  · have hl : isLeap (x + 1) = true := (isLeap_iff _).2 (Or.inr h400)
    simp only [h4, h100, h400, hl, if_pos, if_true]
    omega
  · have hl : isLeap (x + 1) = false := by
      rw [← Bool.not_eq_true, isLeap_iff]
      push_neg
      exact ⟨fun _ => h100, h400⟩
    simp only [h4, h100, h400, hl, if_pos, if_neg, if_false, Bool.false_eq_true]
    omega
  · exact absurd (h400_100 h400) h100
  · have hl : isLeap (x + 1) = true := (isLeap_iff _).2 (Or.inl ⟨h4, h100⟩)
    simp only [h4, h100, h400, hl, if_pos, if_neg, if_true]
    omega
  · exact absurd (h100_4 h100) h4
  · exact absurd (h100_4 h100) h4
  · exact absurd (h400_100 h400) h100
  · have hl : isLeap (x + 1) = false := by
      rw [← Bool.not_eq_true, isLeap_iff]
      push_neg
      exact ⟨fun h => absurd h h4, h400⟩
    simp only [h4, h100, h400, hl, if_neg, if_false, Bool.false_eq_true]
    omega

theorem leapsBefore_mono : Monotone leapsBefore := by
  apply monotone_nat_of_le_succ
  intro y
  cases y with
  | zero => decide
  | succ x =>
    rw [leapsBefore_succ (x + 1) (by omega)]
    omega

/-- The day number is strictly monotone in calendar order on valid dates:
`(b - a).days > 0` whenever `a` is an earlier valid date than `b`. -/
theorem toDayNat_lt_of_dateLt (a b : PyDate) (ha : ValidDate a) (hb : ValidDate b)
    (hab : DateLt a b) : toDayNat a < toDayNat b := by
  obtain ⟨hya, -, hma, hma2, hda, hda2⟩ := ha
  obtain ⟨hyb, -, hmb, hmb2, hdb, hdb2⟩ := hb
  have hda2' : a.day ≤ daysInMonthB (isLeap a.year) a.month := hda2
  have hdb2' : b.day ≤ daysInMonthB (isLeap b.year) b.month := hdb2
  rcases hab with hy | ⟨hyeq, hm | ⟨hmeq, hd⟩⟩
  · -- a.year < b.year
    have hwithin := cumDays_add_le_year (isLeap a.year) a.month (by omega) hma
    have bound_a : toDayNat a ≤ 365 * (a.year - 1) + leapsBefore a.year + 365 +
        (if isLeap a.year then 1 else 0) := by
      unfold toDayNat
      omega
    have step : 365 * (a.year - 1) + leapsBefore a.year + 365 +
        (if isLeap a.year then 1 else 0) = 365 * a.year + leapsBefore (a.year + 1) := by
      rw [leapsBefore_succ a.year hya]
      omega
    have mono : leapsBefore (a.year + 1) ≤ leapsBefore b.year :=
      leapsBefore_mono (by omega)
    have bound_b : 365 * (b.year - 1) + leapsBefore b.year < toDayNat b := by
      unfold toDayNat
      omega
    omega
  · -- same year, a.month < b.month
    have hcum := cumDays_month_mono (isLeap a.year) b.month (by omega) a.month
      (by omega) hma
    unfold toDayNat
    rw [hyeq]
    rw [hyeq] at hda2' hcum
    omega
  · -- same year and month, a.day < b.day
    unfold toDayNat
    rw [hyeq, hmeq]
    omega

/-- C3: `call_price()` is
`exp(-r*T) * (F*Φ(d1) - K*Φ(d2))` with `T = (expiry - trade).days / 365`,
`F = S * exp(r*T)`, `d1 = (ln(F/K) + (σ²/2)T)/(σ√T)`, `d2 = d1 - σ√T`, `Φ`
the standard normal CDF; and `time_to_expiry()` is `0` on equal dates and
negative on inverted (valid) dates. -/
theorem call_price_formula_and_tte_sign :
    (∀ b : BlackScholeForwardPrice, ∀ T F : ℝ,
      T = time_to_expiration b → F = forward_price b →
      0 < T → 0 < b.stock_price → 0 < b.strike_price → b.sigma ≠ 0 →
      T = ((toDayNumber b.expiry_date - toDayNumber b.trade_date : ℤ) : ℝ) / 365 ∧
      F = b.stock_price * Real.exp (b.risk_free * T) ∧
      call_options b = Real.exp (-(b.risk_free * T)) *
        (F * normCdf ((Real.log (F / b.strike_price) + b.sigma ^ 2 / 2 * T) /
            (b.sigma * Real.sqrt T)) -
          b.strike_price * normCdf ((Real.log (F / b.strike_price) +
              b.sigma ^ 2 / 2 * T) / (b.sigma * Real.sqrt T) -
            b.sigma * Real.sqrt T))) ∧
    (∀ b : BlackScholeForwardPrice, b.trade_date = b.expiry_date →
      time_to_expiration b = 0) ∧
    (∀ b : BlackScholeForwardPrice, ValidDate b.trade_date →
      ValidDate b.expiry_date → DateLt b.expiry_date b.trade_date →
      time_to_expiration b < 0) := by
  refine ⟨?_, ?_, ?_⟩
  · intro b T F hT hF _ _ _ _
    subst hT hF
    exact ⟨rfl, rfl, by simp only [call_options, d1, d2, neg_mul]⟩
  · intro b h
    simp [time_to_expiration, toDayNumber, h]
  · intro b hvt hve hlt
    have hdays : toDayNat b.expiry_date < toDayNat b.trade_date :=
      toDayNat_lt_of_dateLt _ _ hve hvt hlt
    have hnum : ((toDayNumber b.expiry_date - toDayNumber b.trade_date : ℤ) : ℝ) < 0 := by
      rw [toDayNumber, toDayNumber]
      push_cast
      have : (toDayNat b.expiry_date : ℝ) < (toDayNat b.trade_date : ℝ) := by
        exact_mod_cast hdays
      linarith
    exact div_neg_of_neg_of_pos hnum (by norm_num)

/-- Witness for C3 at the repository's fixture: trade 2022-11-23, expiry
2023-05-10 (168 days), spot 19, strike 17, rate 0.005, volatility 0.3. -/
theorem call_price_formula_and_tte_sign_witness :
    (0 : ℝ) < time_to_expiration ⟨⟨2022, 11, 23⟩, ⟨2023, 5, 10⟩, 19, 17, 0.005, 0.3⟩ ∧
      call_options ⟨⟨2022, 11, 23⟩, ⟨2023, 5, 10⟩, 19, 17, 0.005, 0.3⟩ =
        Real.exp (-((0.005 : ℝ) * time_to_expiration ⟨⟨2022, 11, 23⟩, ⟨2023, 5, 10⟩,
            19, 17, 0.005, 0.3⟩)) *
          (forward_price ⟨⟨2022, 11, 23⟩, ⟨2023, 5, 10⟩, 19, 17, 0.005, 0.3⟩ *
              normCdf ((Real.log (forward_price ⟨⟨2022, 11, 23⟩, ⟨2023, 5, 10⟩,
                    19, 17, 0.005, 0.3⟩ / 17) +
                  (0.3 : ℝ) ^ 2 / 2 * time_to_expiration ⟨⟨2022, 11, 23⟩,
                    ⟨2023, 5, 10⟩, 19, 17, 0.005, 0.3⟩) /
                (0.3 * Real.sqrt (time_to_expiration ⟨⟨2022, 11, 23⟩,
                  ⟨2023, 5, 10⟩, 19, 17, 0.005, 0.3⟩))) -
            17 * normCdf ((Real.log (forward_price ⟨⟨2022, 11, 23⟩, ⟨2023, 5, 10⟩,
                    19, 17, 0.005, 0.3⟩ / 17) +
                  (0.3 : ℝ) ^ 2 / 2 * time_to_expiration ⟨⟨2022, 11, 23⟩,
                    ⟨2023, 5, 10⟩, 19, 17, 0.005, 0.3⟩) /
                (0.3 * Real.sqrt (time_to_expiration ⟨⟨2022, 11, 23⟩,
                  ⟨2023, 5, 10⟩, 19, 17, 0.005, 0.3⟩)) -
              0.3 * Real.sqrt (time_to_expiration ⟨⟨2022, 11, 23⟩, ⟨2023, 5, 10⟩,
                19, 17, 0.005, 0.3⟩))) := by
  have hdiff : toDayNumber (⟨2023, 5, 10⟩ : PyDate) -
      toDayNumber (⟨2022, 11, 23⟩ : PyDate) = 168 := by decide
  have hT : time_to_expiration ⟨⟨2022, 11, 23⟩, ⟨2023, 5, 10⟩, 19, 17, 0.005, 0.3⟩ =
      (168 : ℝ) / 365 := by
    unfold time_to_expiration
    rw [hdiff]
    norm_num
  have hTpos : (0 : ℝ) < time_to_expiration ⟨⟨2022, 11, 23⟩, ⟨2023, 5, 10⟩,
      19, 17, 0.005, 0.3⟩ := by
    rw [hT]
    norm_num
  exact ⟨hTpos,
    (call_price_formula_and_tte_sign.1 ⟨⟨2022, 11, 23⟩, ⟨2023, 5, 10⟩, 19, 17,
      0.005, 0.3⟩ _ _ rfl rfl hTpos (by norm_num) (by norm_num) (by norm_num)).2.2⟩

/-! ## The standard normal CDF: decomposition about zero -/

theorem gauss_eq : (fun t : ℝ => Real.exp (-(t ^ 2 / 2))) =
    fun t : ℝ => Real.exp (-(1 / 2 : ℝ) * t ^ 2) := by
  funext t
  congr 1
  ring

theorem integrable_gauss :
    MeasureTheory.Integrable (fun t : ℝ => Real.exp (-(t ^ 2 / 2))) := by
  rw [gauss_eq]
  exact integrable_exp_neg_mul_sq (by norm_num)

theorem integral_gauss_Iic_zero :
    ∫ t in Set.Iic (0 : ℝ), Real.exp (-(t ^ 2 / 2)) = Real.sqrt (2 * Real.pi) / 2 := by
  have h1 : ∫ t in Set.Iic (0 : ℝ), Real.exp (-(t ^ 2 / 2)) =
      ∫ t in Set.Ioi (-(0 : ℝ)), Real.exp (-(t ^ 2 / 2)) := by
    have h := integral_comp_neg_Iic (0 : ℝ)
      (fun t => Real.exp (-(t ^ 2 / 2)))
    simpa using h
  rw [h1]
  have h2 := integral_gaussian_Ioi (1 / 2 : ℝ)
  have h3 : Real.pi / (1 / 2) = 2 * Real.pi := by ring
  rw [h3] at h2
  simp only [neg_zero]
  rw [gauss_eq]
  exact h2

theorem normCdf_eq (x : ℝ) :
    normCdf x = 1 / 2 +
      (Real.sqrt (2 * Real.pi))⁻¹ * ∫ t in (0 : ℝ)..x, Real.exp (-(t ^ 2 / 2)) := by
  have hsub := intervalIntegral.integral_Iic_sub_Iic
    (μ := MeasureTheory.volume) (f := fun t : ℝ => Real.exp (-(t ^ 2 / 2)))
    (a := (0 : ℝ)) (b := x)
    integrable_gauss.integrableOn integrable_gauss.integrableOn
  have hIic : ∫ t in Set.Iic x, Real.exp (-(t ^ 2 / 2)) =
      Real.sqrt (2 * Real.pi) / 2 + ∫ t in (0 : ℝ)..x, Real.exp (-(t ^ 2 / 2)) := by
    rw [← integral_gauss_Iic_zero]
    linarith [hsub]
  unfold normCdf
  rw [hIic, mul_add]
  have hs : (0 : ℝ) < Real.sqrt (2 * Real.pi) :=
    Real.sqrt_pos.mpr (by positivity)
  have hhalf : (Real.sqrt (2 * Real.pi))⁻¹ * (Real.sqrt (2 * Real.pi) / 2) = 1 / 2 := by
    field_simp
  rw [hhalf]


/-! ## Polynomial enclosure of the Gaussian integrand -/

/-- Lower endpoint of the degree-8 Taylor enclosure of `exp (-(t^2/2))`. -/
noncomputable def glowP (t : ℝ) : ℝ :=
  1 - t ^ 2 / 2 + t ^ 4 / 8 - t ^ 6 / 48 - t ^ 8 * (5 / 1536)

/-- Upper endpoint of the degree-8 Taylor enclosure of `exp (-(t^2/2))`. -/
noncomputable def ghighP (t : ℝ) : ℝ :=
  1 - t ^ 2 / 2 + t ^ 4 / 8 - t ^ 6 / 48 + t ^ 8 * (5 / 1536)

/-- Antiderivative of `glowP` vanishing at `0`. -/
noncomputable def Glow (x : ℝ) : ℝ :=
  x - x ^ 3 / 6 + x ^ 5 / 40 - x ^ 7 / 336 - x ^ 9 * (5 / 13824)

/-- Antiderivative of `ghighP` vanishing at `0`. -/
noncomputable def Ghigh (x : ℝ) : ℝ :=
  x - x ^ 3 / 6 + x ^ 5 / 40 - x ^ 7 / 336 + x ^ 9 * (5 / 13824)

theorem exp_neg_quartic_bounds (u : ℝ) (h0 : 0 ≤ u) (h1 : u ≤ 1) :
    1 - u + u ^ 2 / 2 - u ^ 3 / 6 - u ^ 4 * (5 / 96) ≤ Real.exp (-u) ∧
      Real.exp (-u) ≤ 1 - u + u ^ 2 / 2 - u ^ 3 / 6 + u ^ 4 * (5 / 96) := by
  have habs : |(-u)| ≤ 1 := by rw [abs_neg, abs_of_nonneg h0]; exact h1
  have hb := Real.exp_bound habs (n := 4) (by norm_num)
  have hsum : ∑ m ∈ Finset.range 4, (-u) ^ m / m.factorial =
      1 - u + u ^ 2 / 2 - u ^ 3 / 6 := by
    rw [Finset.sum_range_succ, Finset.sum_range_succ, Finset.sum_range_succ,
      Finset.sum_range_succ, Finset.sum_range_zero]
    norm_num [Nat.factorial]
    ring
  have habs4 : |(-u)| ^ 4 = u ^ 4 := by rw [abs_neg, abs_of_nonneg h0]
  rw [hsum, habs4] at hb
  have hcoef : ((4 : ℕ).succ : ℝ) / ((4 : ℕ).factorial * (4 : ℕ)) = 5 / 96 := by
    norm_num [Nat.factorial]
  rw [hcoef] at hb
  obtain ⟨hl, hr⟩ := abs_le.mp hb
  constructor <;> nlinarith [hl, hr]

theorem gauss_poly_bounds (t : ℝ) (h : t ^ 2 ≤ 1) :
    glowP t ≤ Real.exp (-(t ^ 2 / 2)) ∧ Real.exp (-(t ^ 2 / 2)) ≤ ghighP t := by
  have h0 : 0 ≤ t ^ 2 / 2 := by positivity
  have h1 : t ^ 2 / 2 ≤ 1 := by linarith
  obtain ⟨hl, hr⟩ := exp_neg_quartic_bounds (t ^ 2 / 2) h0 h1
  have he1 : 1 - t ^ 2 / 2 + (t ^ 2 / 2) ^ 2 / 2 - (t ^ 2 / 2) ^ 3 / 6 -
      (t ^ 2 / 2) ^ 4 * (5 / 96) = glowP t := by unfold glowP; ring
  have he2 : 1 - t ^ 2 / 2 + (t ^ 2 / 2) ^ 2 / 2 - (t ^ 2 / 2) ^ 3 / 6 +
      (t ^ 2 / 2) ^ 4 * (5 / 96) = ghighP t := by unfold ghighP; ring
  constructor
  · rw [← he1]; exact hl
  · rw [← he2]; exact hr

theorem hasDerivAt_Glow (t : ℝ) : HasDerivAt Glow (glowP t) t := by
  have h3 := hasDerivAt_pow 3 t
  have h5 := hasDerivAt_pow 5 t
  have h7 := hasDerivAt_pow 7 t
  have h9 := hasDerivAt_pow 9 t
  have h := ((((hasDerivAt_id t).sub (h3.div_const 6)).add (h5.div_const 40)).sub
    (h7.div_const 336)).sub (h9.mul_const (5 / 13824))
  simp only [id_eq] at h
  have hfun : (fun x : ℝ => x - x ^ 3 / 6 + x ^ 5 / 40 - x ^ 7 / 336 -
      x ^ 9 * (5 / 13824)) = Glow := by
    funext x; unfold Glow; ring
  rw [hfun] at h
  convert h using 1
  unfold glowP
  push_cast
  ring

theorem hasDerivAt_Ghigh (t : ℝ) : HasDerivAt Ghigh (ghighP t) t := by
  have h3 := hasDerivAt_pow 3 t
  have h5 := hasDerivAt_pow 5 t
  have h7 := hasDerivAt_pow 7 t
  have h9 := hasDerivAt_pow 9 t
  have h := ((((hasDerivAt_id t).sub (h3.div_const 6)).add (h5.div_const 40)).sub
    (h7.div_const 336)).add (h9.mul_const (5 / 13824))
  simp only [id_eq] at h
  have hfun : (fun x : ℝ => x - x ^ 3 / 6 + x ^ 5 / 40 - x ^ 7 / 336 +
      x ^ 9 * (5 / 13824)) = Ghigh := by
    funext x; unfold Ghigh; ring
  rw [hfun] at h
  convert h using 1
  unfold ghighP
  push_cast
  ring

theorem continuous_gauss : Continuous fun t : ℝ => Real.exp (-(t ^ 2 / 2)) := by
  continuity

theorem continuous_glowP : Continuous glowP := by
  unfold glowP
  continuity

theorem continuous_ghighP : Continuous ghighP := by
  unfold ghighP
  continuity

theorem intervalIntegral_gauss_bounds (x : ℝ) (h0 : 0 ≤ x) (h1 : x ≤ 1) :
    Glow x ≤ (∫ t in (0 : ℝ)..x, Real.exp (-(t ^ 2 / 2))) ∧
      (∫ t in (0 : ℝ)..x, Real.exp (-(t ^ 2 / 2))) ≤ Ghigh x := by
  have hgi : IntervalIntegrable (fun t : ℝ => Real.exp (-(t ^ 2 / 2)))
      MeasureTheory.volume 0 x := continuous_gauss.intervalIntegrable 0 x
  have hli : IntervalIntegrable glowP MeasureTheory.volume 0 x :=
    continuous_glowP.intervalIntegrable 0 x
  have hhi : IntervalIntegrable ghighP MeasureTheory.volume 0 x :=
    continuous_ghighP.intervalIntegrable 0 x
  have hsq : ∀ t ∈ Set.Icc (0 : ℝ) x, t ^ 2 ≤ 1 := by
    intro t ht
    obtain ⟨ht0, htx⟩ := ht
    nlinarith
  have hlo : (∫ t in (0 : ℝ)..x, glowP t) ≤
      ∫ t in (0 : ℝ)..x, Real.exp (-(t ^ 2 / 2)) :=
    intervalIntegral.integral_mono_on h0 hli hgi
      (fun t ht => (gauss_poly_bounds t (hsq t ht)).1)
  have hhiI : (∫ t in (0 : ℝ)..x, Real.exp (-(t ^ 2 / 2))) ≤
      ∫ t in (0 : ℝ)..x, ghighP t :=
    intervalIntegral.integral_mono_on h0 hgi hhi
      (fun t ht => (gauss_poly_bounds t (hsq t ht)).2)
  have heq_lo : (∫ t in (0 : ℝ)..x, glowP t) = Glow x := by
    rw [intervalIntegral.integral_eq_sub_of_hasDerivAt
      (fun t _ => hasDerivAt_Glow t) hli]
    unfold Glow
    norm_num
  have heq_hi : (∫ t in (0 : ℝ)..x, ghighP t) = Ghigh x := by
    rw [intervalIntegral.integral_eq_sub_of_hasDerivAt
      (fun t _ => hasDerivAt_Ghigh t) hhi]
    unfold Ghigh
    norm_num
  constructor
  · rw [← heq_lo]; exact hlo
  · rw [← heq_hi]; exact hhiI


/-! ## Rational bounds on the normal CDF -/

theorem sqrt_two_pi_pos : (0 : ℝ) < Real.sqrt (2 * Real.pi) :=
  Real.sqrt_pos.mpr (by positivity)

theorem normCdf_lower_of_nonneg (q c : ℝ) (h0 : 0 ≤ q) (h1 : q ≤ 1)
    (hc : Real.sqrt (2 * Real.pi) ≤ c) (hG : 0 ≤ Glow q) :
    1 / 2 + Glow q / c ≤ normCdf q := by
  rw [normCdf_eq]
  have hI := (intervalIntegral_gauss_bounds q h0 h1).1
  have hs := sqrt_two_pi_pos
  have hcpos : 0 < c := lt_of_lt_of_le hs hc
  have h2 : Glow q / c ≤ Glow q / Real.sqrt (2 * Real.pi) :=
    div_le_div_of_nonneg_left hG hs hc
  have h3 : Glow q / Real.sqrt (2 * Real.pi) ≤
      (Real.sqrt (2 * Real.pi))⁻¹ * ∫ t in (0 : ℝ)..q, Real.exp (-(t ^ 2 / 2)) := by
    rw [div_eq_inv_mul]
    exact mul_le_mul_of_nonneg_left hI (by positivity)
  linarith

theorem normCdf_upper_of_nonneg (q c : ℝ) (h0 : 0 ≤ q) (h1 : q ≤ 1)
    (hcpos : 0 < c) (hc : c ≤ Real.sqrt (2 * Real.pi)) (hG : 0 ≤ Glow q) :
    normCdf q ≤ 1 / 2 + Ghigh q / c := by
  rw [normCdf_eq]
  obtain ⟨hIlo, hIhi⟩ := intervalIntegral_gauss_bounds q h0 h1
  have hs := sqrt_two_pi_pos
  have hI0 : 0 ≤ ∫ t in (0 : ℝ)..q, Real.exp (-(t ^ 2 / 2)) := le_trans hG hIlo
  have h2 : (Real.sqrt (2 * Real.pi))⁻¹ *
      (∫ t in (0 : ℝ)..q, Real.exp (-(t ^ 2 / 2))) ≤
      (∫ t in (0 : ℝ)..q, Real.exp (-(t ^ 2 / 2))) / c := by
    rw [div_eq_inv_mul]
    apply mul_le_mul_of_nonneg_right _ hI0
    exact inv_anti₀ hcpos hc
  have h3 : (∫ t in (0 : ℝ)..q, Real.exp (-(t ^ 2 / 2))) / c ≤ Ghigh q / c :=
    (div_le_div_iff_of_pos_right hcpos).mpr hIhi
  linarith

theorem intervalIntegral_gauss_neg (x : ℝ) :
    (∫ t in (0 : ℝ)..(-x), Real.exp (-(t ^ 2 / 2))) =
      -∫ t in (0 : ℝ)..x, Real.exp (-(t ^ 2 / 2)) := by
  have h := intervalIntegral.integral_comp_neg (a := (0 : ℝ)) (b := x)
    (f := fun t : ℝ => Real.exp (-(t ^ 2 / 2)))
  simp only [neg_zero] at h
  have h2 : (∫ t in (0 : ℝ)..x, Real.exp (-((-t) ^ 2 / 2))) =
      ∫ t in (0 : ℝ)..x, Real.exp (-(t ^ 2 / 2)) := by
    congr 1
    funext t
    rw [neg_sq]
  rw [h2] at h
  rw [intervalIntegral.integral_symm, ← h]

theorem normCdf_neg_eq (q : ℝ) :
    normCdf (-q) = 1 / 2 -
      (Real.sqrt (2 * Real.pi))⁻¹ * ∫ t in (0 : ℝ)..q, Real.exp (-(t ^ 2 / 2)) := by
  rw [normCdf_eq, intervalIntegral_gauss_neg]
  ring

theorem normCdf_neg_lower (q c : ℝ) (h0 : 0 ≤ q) (h1 : q ≤ 1)
    (hcpos : 0 < c) (hc : c ≤ Real.sqrt (2 * Real.pi)) (hG : 0 ≤ Glow q) :
    1 / 2 - Ghigh q / c ≤ normCdf (-q) := by
  rw [normCdf_neg_eq]
  obtain ⟨hIlo, hIhi⟩ := intervalIntegral_gauss_bounds q h0 h1
  have hs := sqrt_two_pi_pos
  have hI0 : 0 ≤ ∫ t in (0 : ℝ)..q, Real.exp (-(t ^ 2 / 2)) := le_trans hG hIlo
  have h2 : (Real.sqrt (2 * Real.pi))⁻¹ *
      (∫ t in (0 : ℝ)..q, Real.exp (-(t ^ 2 / 2))) ≤ Ghigh q / c := by
    calc (Real.sqrt (2 * Real.pi))⁻¹ *
        (∫ t in (0 : ℝ)..q, Real.exp (-(t ^ 2 / 2))) ≤
        (∫ t in (0 : ℝ)..q, Real.exp (-(t ^ 2 / 2))) / c := by
          rw [div_eq_inv_mul]
          exact mul_le_mul_of_nonneg_right (inv_anti₀ hcpos hc) hI0
      _ ≤ Ghigh q / c := (div_le_div_iff_of_pos_right hcpos).mpr hIhi
  linarith

theorem normCdf_neg_upper (q c : ℝ) (h0 : 0 ≤ q) (h1 : q ≤ 1)
    (hc : Real.sqrt (2 * Real.pi) ≤ c) (hG : 0 ≤ Glow q) :
    normCdf (-q) ≤ 1 / 2 - Glow q / c := by
  rw [normCdf_neg_eq]
  have hI := (intervalIntegral_gauss_bounds q h0 h1).1
  have hs := sqrt_two_pi_pos
  have hcpos : 0 < c := lt_of_lt_of_le hs hc
  have h2 : Glow q / c ≤ (Real.sqrt (2 * Real.pi))⁻¹ *
      ∫ t in (0 : ℝ)..q, Real.exp (-(t ^ 2 / 2)) := by
    calc Glow q / c ≤ Glow q / Real.sqrt (2 * Real.pi) :=
        div_le_div_of_nonneg_left hG hs hc
      _ ≤ (Real.sqrt (2 * Real.pi))⁻¹ *
          ∫ t in (0 : ℝ)..q, Real.exp (-(t ^ 2 / 2)) := by
        rw [div_eq_inv_mul]
        exact mul_le_mul_of_nonneg_left hI (by positivity)
  linarith

theorem normCdf_mono {a b : ℝ} (hab : a ≤ b) : normCdf a ≤ normCdf b := by
  rw [normCdf_eq, normCdf_eq]
  have hia : IntervalIntegrable (fun t : ℝ => Real.exp (-(t ^ 2 / 2)))
      MeasureTheory.volume 0 a := continuous_gauss.intervalIntegrable 0 a
  have hiab : IntervalIntegrable (fun t : ℝ => Real.exp (-(t ^ 2 / 2)))
      MeasureTheory.volume a b := continuous_gauss.intervalIntegrable a b
  have hadd := intervalIntegral.integral_add_adjacent_intervals hia hiab
  have hnn : 0 ≤ ∫ t in a..b, Real.exp (-(t ^ 2 / 2)) :=
    intervalIntegral.integral_nonneg hab (fun u _ => (Real.exp_pos _).le)
  have h2 : (∫ t in (0 : ℝ)..a, Real.exp (-(t ^ 2 / 2))) ≤
      ∫ t in (0 : ℝ)..b, Real.exp (-(t ^ 2 / 2)) := by
    rw [← hadd]
    linarith
  have := mul_le_mul_of_nonneg_left h2
    (le_of_lt (inv_pos.mpr sqrt_two_pi_pos))
  linarith


/-! ## Certified rational bounds for the fixture constants -/

theorem sqrt_two_pi_bounds :
    (2.5066280 : ℝ) ≤ Real.sqrt (2 * Real.pi) ∧
      Real.sqrt (2 * Real.pi) ≤ 2.5066285 := by
  have hpi1 := Real.pi_gt_d6
  have hpi2 := Real.pi_lt_d6
  constructor
  · rw [Real.le_sqrt (by norm_num) (by positivity)]
    nlinarith
  · rw [Real.sqrt_le_left (by norm_num)]
    nlinarith

theorem sqrt_T_bounds :
    (0.6784349 : ℝ) ≤ Real.sqrt (168 / 365) ∧
      Real.sqrt (168 / 365 : ℝ) ≤ 0.6784350 := by
  constructor
  · rw [Real.le_sqrt (by norm_num) (by norm_num)]
    norm_num
  · rw [Real.sqrt_le_left (by norm_num)]
    norm_num

theorem exp_upper_poly (x : ℝ) (h0 : 0 ≤ x) (h1 : x ≤ 1) :
    Real.exp x ≤ 1 + x + x ^ 2 / 2 + x ^ 3 / 6 + x ^ 4 / 24 + x ^ 5 / 100 := by
  have h := Real.exp_bound' h0 h1 (n := 5) (by norm_num)
  have hsum : ∑ m ∈ Finset.range 5, x ^ m / m.factorial =
      1 + x + x ^ 2 / 2 + x ^ 3 / 6 + x ^ 4 / 24 := by
    rw [Finset.sum_range_succ, Finset.sum_range_succ, Finset.sum_range_succ,
      Finset.sum_range_succ, Finset.sum_range_succ, Finset.sum_range_zero]
    norm_num [Nat.factorial]
  rw [hsum] at h
  have hc : x ^ 5 * (5 + 1) / ((5 : ℕ).factorial * 5) = x ^ 5 / 100 := by
    norm_num [Nat.factorial]
    ring
  nlinarith [h]

theorem exp_lower_poly (x : ℝ) (h0 : 0 ≤ x) :
    1 + x + x ^ 2 / 2 + x ^ 3 / 6 + x ^ 4 / 24 ≤ Real.exp x := by
  have h := Real.sum_le_exp_of_nonneg h0 5
  have hsum : ∑ m ∈ Finset.range 5, x ^ m / m.factorial =
      1 + x + x ^ 2 / 2 + x ^ 3 / 6 + x ^ 4 / 24 := by
    rw [Finset.sum_range_succ, Finset.sum_range_succ, Finset.sum_range_succ,
      Finset.sum_range_succ, Finset.sum_range_succ, Finset.sum_range_zero]
    norm_num [Nat.factorial]
  rw [hsum] at h
  exact h

theorem log_19_17_bounds :
    (0.1112255 : ℝ) ≤ Real.log (19 / 17) ∧ Real.log (19 / 17 : ℝ) ≤ 0.1112260 := by
  constructor
  · rw [Real.le_log_iff_exp_le (by norm_num)]
    have h := exp_upper_poly 0.1112255 (by norm_num) (by norm_num)
    have h2 : (1 : ℝ) + 0.1112255 + 0.1112255 ^ 2 / 2 + 0.1112255 ^ 3 / 6 +
        0.1112255 ^ 4 / 24 + 0.1112255 ^ 5 / 100 ≤ 19 / 17 := by norm_num
    linarith
  · rw [Real.log_le_iff_le_exp (by norm_num)]
    have h := exp_lower_poly 0.1112260 (by norm_num)
    have h2 : (19 / 17 : ℝ) ≤ 1 + 0.1112260 + 0.1112260 ^ 2 / 2 +
        0.1112260 ^ 3 / 6 + 0.1112260 ^ 4 / 24 := by norm_num
    linarith

theorem log_17_15_bounds :
    (0.1251630 : ℝ) ≤ Real.log (17 / 15) ∧ Real.log (17 / 15 : ℝ) ≤ 0.1251636 := by
  constructor
  · rw [Real.le_log_iff_exp_le (by norm_num)]
    have h := exp_upper_poly 0.1251630 (by norm_num) (by norm_num)
    have h2 : (1 : ℝ) + 0.1251630 + 0.1251630 ^ 2 / 2 + 0.1251630 ^ 3 / 6 +
        0.1251630 ^ 4 / 24 + 0.1251630 ^ 5 / 100 ≤ 17 / 15 := by norm_num
    linarith
  · rw [Real.log_le_iff_le_exp (by norm_num)]
    have h := exp_lower_poly 0.1251636 (by norm_num)
    have h2 : (17 / 15 : ℝ) ≤ 1 + 0.1251636 + 0.1251636 ^ 2 / 2 +
        0.1251636 ^ 3 / 6 + 0.1251636 ^ 4 / 24 := by norm_num
    linarith

theorem exp_neg_rT_bounds :
    (0.9977012 : ℝ) ≤ Real.exp (-0.005 * (168 / 365)) ∧
      Real.exp (-0.005 * (168 / 365) : ℝ) ≤ 0.9977013 := by
  have h : (-0.005 * (168 / 365) : ℝ) = -(21 / 9125) := by norm_num
  rw [h]
  obtain ⟨hl, hr⟩ := exp_neg_quartic_bounds (21 / 9125) (by norm_num) (by norm_num)
  constructor
  · have h2 : (0.9977012 : ℝ) ≤ 1 - 21 / 9125 + (21 / 9125) ^ 2 / 2 -
        (21 / 9125) ^ 3 / 6 - (21 / 9125) ^ 4 * (5 / 96) := by norm_num
    linarith
  · have h2 : (1 : ℝ) - 21 / 9125 + (21 / 9125) ^ 2 / 2 - (21 / 9125) ^ 3 / 6 +
        (21 / 9125) ^ 4 * (5 / 96) ≤ 0.9977013 := by norm_num
    linarith

/-- The algebraic simplification `exp(-rT) * forward = spot`, turning
`call_options` into the textbook `S·Φ(d1) - K·exp(-rT)·Φ(d2)` form. -/
theorem call_eq_std (b : BlackScholeForwardPrice) :
    call_options b = b.stock_price * normCdf (d1 b) -
      b.strike_price * Real.exp (-b.risk_free * time_to_expiration b) *
        normCdf (d2 b) := by
  unfold call_options forward_price
  have hexp : Real.exp (-b.risk_free * time_to_expiration b) *
      Real.exp (b.risk_free * time_to_expiration b) = 1 := by
    rw [← Real.exp_add]
    norm_num
  linear_combination (b.stock_price * normCdf (d1 b)) * hexp

/-- With positive spot and strike, the `log (forward / strike)` inside `d1`
splits into `log (spot / strike) + r·T`. -/
theorem d1_log_split (b : BlackScholeForwardPrice)
    (hS : 0 < b.stock_price) (hK : 0 < b.strike_price) :
    d1 b = (Real.log (b.stock_price / b.strike_price) +
        b.risk_free * time_to_expiration b +
        b.sigma ^ 2 / 2 * time_to_expiration b) /
      (b.sigma * Real.sqrt (time_to_expiration b)) := by
  unfold d1 forward_price
  congr 1
  have h1 : b.stock_price * Real.exp (b.risk_free * time_to_expiration b) /
      b.strike_price = b.stock_price / b.strike_price *
        Real.exp (b.risk_free * time_to_expiration b) := by ring
  rw [h1, Real.log_mul (by positivity) (Real.exp_ne_zero _), Real.log_exp]


/-! ## The test fixture and bounds on its d-values -/

/-- The repository's test fixture: trade 2022-11-23, expiry 2023-05-10,
strike 17, risk-free 0.005, volatility 0.3, at spot `s`. -/
noncomputable def bsFixture (s : ℝ) : BlackScholeForwardPrice :=
  ⟨⟨2022, 11, 23⟩, ⟨2023, 5, 10⟩, s, 17, 0.005, 0.3⟩

theorem bsFixture_tte (s : ℝ) :
    time_to_expiration (bsFixture s) = 168 / 365 := by
  have hdiff : toDayNumber (⟨2023, 5, 10⟩ : PyDate) -
      toDayNumber (⟨2022, 11, 23⟩ : PyDate) = 168 := by decide
  unfold time_to_expiration
  simp only [bsFixture]
  rw [hdiff]
  norm_num

theorem d1_19_bounds :
    (0.659552 : ℝ) ≤ d1 (bsFixture 19) ∧ d1 (bsFixture 19) ≤ 0.659557 := by
  rw [d1_log_split (bsFixture 19) (by norm_num [bsFixture]) (by norm_num [bsFixture]),
    bsFixture_tte]
  simp only [bsFixture]
  obtain ⟨hL1, hL2⟩ := log_19_17_bounds
  obtain ⟨hs1, hs2⟩ := sqrt_T_bounds
  have hden : (0 : ℝ) < 0.3 * Real.sqrt (168 / 365) := by nlinarith
  constructor
  · rw [le_div_iff₀ hden]
    nlinarith
  · rw [div_le_iff₀ hden]
    nlinarith

theorem d2_19_eq : d2 (bsFixture 19) = d1 (bsFixture 19) - 0.3 * Real.sqrt (168 / 365) := by
  unfold d2
  rw [bsFixture_tte]
  simp only [bsFixture]

theorem d2_19_bounds :
    (0.456021 : ℝ) ≤ d2 (bsFixture 19) ∧ d2 (bsFixture 19) ≤ 0.456027 := by
  rw [d2_19_eq]
  obtain ⟨hd1, hd2⟩ := d1_19_bounds
  obtain ⟨hs1, hs2⟩ := sqrt_T_bounds
  constructor <;> nlinarith

theorem d1_17_bounds :
    (0.113072 : ℝ) ≤ d1 (bsFixture 17) ∧ d1 (bsFixture 17) ≤ 0.113073 := by
  rw [d1_log_split (bsFixture 17) (by norm_num [bsFixture]) (by norm_num [bsFixture]),
    bsFixture_tte]
  simp only [bsFixture]
  have hlog : Real.log ((17 : ℝ) / 17) = 0 := by
    norm_num
  rw [hlog]
  obtain ⟨hs1, hs2⟩ := sqrt_T_bounds
  have hden : (0 : ℝ) < 0.3 * Real.sqrt (168 / 365) := by nlinarith
  constructor
  · rw [le_div_iff₀ hden]
    nlinarith
  · rw [div_le_iff₀ hden]
    nlinarith

theorem d2_17_eq : d2 (bsFixture 17) = d1 (bsFixture 17) - 0.3 * Real.sqrt (168 / 365) := by
  unfold d2
  rw [bsFixture_tte]
  simp only [bsFixture]

theorem d2_17_bounds :
    (-0.090459 : ℝ) ≤ d2 (bsFixture 17) ∧ d2 (bsFixture 17) ≤ -0.090457 := by
  rw [d2_17_eq]
  obtain ⟨hd1, hd2⟩ := d1_17_bounds
  obtain ⟨hs1, hs2⟩ := sqrt_T_bounds
  constructor <;> nlinarith

theorem d1_15_bounds :
    (-0.501890 : ℝ) ≤ d1 (bsFixture 15) ∧ d1 (bsFixture 15) ≤ -0.501886 := by
  rw [d1_log_split (bsFixture 15) (by norm_num [bsFixture]) (by norm_num [bsFixture]),
    bsFixture_tte]
  simp only [bsFixture]
  have hlog : Real.log ((15 : ℝ) / 17) = -Real.log (17 / 15) := by
    rw [← Real.log_inv]
    norm_num
  rw [hlog]
  obtain ⟨hL1, hL2⟩ := log_17_15_bounds
  obtain ⟨hs1, hs2⟩ := sqrt_T_bounds
  have hden : (0 : ℝ) < 0.3 * Real.sqrt (168 / 365) := by nlinarith
  constructor
  · rw [le_div_iff₀ hden]
    nlinarith
  · rw [div_le_iff₀ hden]
    nlinarith

theorem d2_15_eq : d2 (bsFixture 15) = d1 (bsFixture 15) - 0.3 * Real.sqrt (168 / 365) := by
  unfold d2
  rw [bsFixture_tte]
  simp only [bsFixture]

theorem d2_15_bounds :
    (-0.705421 : ℝ) ≤ d2 (bsFixture 15) ∧ d2 (bsFixture 15) ≤ -0.705416 := by
  rw [d2_15_eq]
  obtain ⟨hd1, hd2⟩ := d1_15_bounds
  obtain ⟨hs1, hs2⟩ := sqrt_T_bounds
  constructor <;> nlinarith


/-! ## Normal CDF values at the fixture d-values -/

theorem phi_d1_19_bounds :
    (0.745223 : ℝ) ≤ normCdf (d1 (bsFixture 19)) ∧
      normCdf (d1 (bsFixture 19)) ≤ 0.745232 := by
  obtain ⟨hdl, hdh⟩ := d1_19_bounds
  constructor
  · have h1 := normCdf_lower_of_nonneg 0.659552 2.5066285 (by norm_num)
      (by norm_num) sqrt_two_pi_bounds.2 (by unfold Glow; norm_num)
    have h2 := normCdf_mono hdl
    have h3 : (0.745223 : ℝ) ≤ 1 / 2 + Glow 0.659552 / 2.5066285 := by
      unfold Glow; norm_num
    linarith
  · have h1 := normCdf_upper_of_nonneg 0.659557 2.5066280 (by norm_num)
      (by norm_num) (by norm_num) sqrt_two_pi_bounds.1 (by unfold Glow; norm_num)
    have h2 := normCdf_mono hdh
    have h3 : (1 : ℝ) / 2 + Ghigh 0.659557 / 2.5066280 ≤ 0.745232 := by
      unfold Ghigh; norm_num
    linarith

theorem phi_d2_19_bounds :
    (0.675812 : ℝ) ≤ normCdf (d2 (bsFixture 19)) ∧
      normCdf (d2 (bsFixture 19)) ≤ 0.675815 := by
  obtain ⟨hdl, hdh⟩ := d2_19_bounds
  constructor
  · have h1 := normCdf_lower_of_nonneg 0.456021 2.5066285 (by norm_num)
      (by norm_num) sqrt_two_pi_bounds.2 (by unfold Glow; norm_num)
    have h2 := normCdf_mono hdl
    have h3 : (0.675812 : ℝ) ≤ 1 / 2 + Glow 0.456021 / 2.5066285 := by
      unfold Glow; norm_num
    linarith
  · have h1 := normCdf_upper_of_nonneg 0.456027 2.5066280 (by norm_num)
      (by norm_num) (by norm_num) sqrt_two_pi_bounds.1 (by unfold Glow; norm_num)
    have h2 := normCdf_mono hdh
    have h3 : (1 : ℝ) / 2 + Ghigh 0.456027 / 2.5066280 ≤ 0.675815 := by
      unfold Ghigh; norm_num
    linarith

theorem phi_d1_17_bounds :
    (0.545013 : ℝ) ≤ normCdf (d1 (bsFixture 17)) ∧
      normCdf (d1 (bsFixture 17)) ≤ 0.545014 := by
  obtain ⟨hdl, hdh⟩ := d1_17_bounds
  constructor
  · have h1 := normCdf_lower_of_nonneg 0.113072 2.5066285 (by norm_num)
      (by norm_num) sqrt_two_pi_bounds.2 (by unfold Glow; norm_num)
    have h2 := normCdf_mono hdl
    have h3 : (0.545013 : ℝ) ≤ 1 / 2 + Glow 0.113072 / 2.5066285 := by
      unfold Glow; norm_num
    linarith
  · have h1 := normCdf_upper_of_nonneg 0.113073 2.5066280 (by norm_num)
      (by norm_num) (by norm_num) sqrt_two_pi_bounds.1 (by unfold Glow; norm_num)
    have h2 := normCdf_mono hdh
    have h3 : (1 : ℝ) / 2 + Ghigh 0.113073 / 2.5066280 ≤ 0.545014 := by
      unfold Ghigh; norm_num
    linarith

theorem phi_d2_17_bounds :
    (0.463961 : ℝ) ≤ normCdf (d2 (bsFixture 17)) ∧
      normCdf (d2 (bsFixture 17)) ≤ 0.463963 := by
  obtain ⟨hdl, hdh⟩ := d2_17_bounds
  constructor
  · have h1 := normCdf_neg_lower 0.090459 2.5066280 (by norm_num) (by norm_num)
      (by norm_num) sqrt_two_pi_bounds.1 (by unfold Glow; norm_num)
    have h2 : normCdf (-(0.090459 : ℝ)) ≤ normCdf (d2 (bsFixture 17)) :=
      normCdf_mono hdl
    have h3 : (0.463961 : ℝ) ≤ 1 / 2 - Ghigh 0.090459 / 2.5066280 := by
      unfold Ghigh; norm_num
    linarith
  · have h1 := normCdf_neg_upper 0.090457 2.5066285 (by norm_num) (by norm_num)
      sqrt_two_pi_bounds.2 (by unfold Glow; norm_num)
    have h2 : normCdf (d2 (bsFixture 17)) ≤ normCdf (-(0.090457 : ℝ)) :=
      normCdf_mono hdh
    have h3 : (1 : ℝ) / 2 - Glow 0.090457 / 2.5066285 ≤ 0.463963 := by
      unfold Glow; norm_num
    linarith

theorem phi_d1_15_bounds :
    (0.307872 : ℝ) ≤ normCdf (d1 (bsFixture 15)) ∧
      normCdf (d1 (bsFixture 15)) ≤ 0.307875 := by
  obtain ⟨hdl, hdh⟩ := d1_15_bounds
  constructor
  · have h1 := normCdf_neg_lower 0.501890 2.5066280 (by norm_num) (by norm_num)
      (by norm_num) sqrt_two_pi_bounds.1 (by unfold Glow; norm_num)
    have h2 : normCdf (-(0.501890 : ℝ)) ≤ normCdf (d1 (bsFixture 15)) :=
      normCdf_mono hdl
    have h3 : (0.307872 : ℝ) ≤ 1 / 2 - Ghigh 0.501890 / 2.5066280 := by
      unfold Ghigh; norm_num
    linarith
  · have h1 := normCdf_neg_upper 0.501886 2.5066285 (by norm_num) (by norm_num)
      sqrt_two_pi_bounds.2 (by unfold Glow; norm_num)
    have h2 : normCdf (d1 (bsFixture 15)) ≤ normCdf (-(0.501886 : ℝ)) :=
      normCdf_mono hdh
    have h3 : (1 : ℝ) / 2 - Glow 0.501886 / 2.5066285 ≤ 0.307875 := by
      unfold Glow; norm_num
    linarith

theorem phi_d2_15_bounds :
    (0.240272 : ℝ) ≤ normCdf (d2 (bsFixture 15)) ∧
      normCdf (d2 (bsFixture 15)) ≤ 0.240287 := by
  obtain ⟨hdl, hdh⟩ := d2_15_bounds
  constructor
  · have h1 := normCdf_neg_lower 0.705421 2.5066280 (by norm_num) (by norm_num)
      (by norm_num) sqrt_two_pi_bounds.1 (by unfold Glow; norm_num)
    have h2 : normCdf (-(0.705421 : ℝ)) ≤ normCdf (d2 (bsFixture 15)) :=
      normCdf_mono hdl
    have h3 : (0.240272 : ℝ) ≤ 1 / 2 - Ghigh 0.705421 / 2.5066280 := by
      unfold Ghigh; norm_num
    linarith
  · have h1 := normCdf_neg_upper 0.705416 2.5066285 (by norm_num) (by norm_num)
      sqrt_two_pi_bounds.2 (by unfold Glow; norm_num)
    have h2 : normCdf (d2 (bsFixture 15)) ≤ normCdf (-(0.705416 : ℝ)) :=
      normCdf_mono hdh
    have h3 : (1 : ℝ) / 2 - Glow 0.705416 / 2.5066285 ≤ 0.240287 := by
      unfold Glow; norm_num
    linarith


/-! ## The pinned fixture prices -/

theorem call_fixture_eq (s : ℝ) :
    call_options (bsFixture s) = s * normCdf (d1 (bsFixture s)) -
      17 * Real.exp (-0.005 * (168 / 365)) * normCdf (d2 (bsFixture s)) := by
  rw [call_eq_std, bsFixture_tte]
  simp only [bsFixture]

theorem put_fixture_eq (s : ℝ) :
    put_options (bsFixture s) = call_options (bsFixture s) - s +
      17 * Real.exp (-0.005 * (168 / 365)) := by
  unfold put_options
  rw [bsFixture_tte]
  simp only [bsFixture]

set_option maxHeartbeats 1000000 in
/-- C9: at the fixed fixture (trade 2022-11-23, expiry 2023-05-10, strike
17, risk-free 0.005, volatility 0.3), the call and put prices at spots 19,
17 and 15 match the pinned test values within 0.1% relative tolerance. -/
theorem fixture_prices_match_tests :
    |call_options (bsFixture 19) - 2.69688| ≤ 0.001 * 2.69688 ∧
    |put_options (bsFixture 19) - 0.65790| ≤ 0.001 * 0.65790 ∧
    |call_options (bsFixture 17) - 1.39597| ≤ 0.001 * 1.39597 ∧
    |put_options (bsFixture 17) - 1.35699| ≤ 0.001 * 1.35699 ∧
    |call_options (bsFixture 15) - 0.54279| ≤ 0.001 * 0.54279 ∧
    |put_options (bsFixture 15) - 2.50381| ≤ 0.001 * 2.50381 := by
  obtain ⟨hE1, hE2⟩ := exp_neg_rT_bounds
  have hEpos : (0 : ℝ) ≤ Real.exp (-0.005 * (168 / 365)) := (Real.exp_pos _).le
  obtain ⟨hA1, hA2⟩ := phi_d1_19_bounds
  obtain ⟨hB1, hB2⟩ := phi_d2_19_bounds
  obtain ⟨hC1, hC2⟩ := phi_d1_17_bounds
  obtain ⟨hD1, hD2⟩ := phi_d2_17_bounds
  obtain ⟨hF1, hF2⟩ := phi_d1_15_bounds
  obtain ⟨hG1, hG2⟩ := phi_d2_15_bounds
  have hp19hi : Real.exp (-0.005 * (168 / 365)) * normCdf (d2 (bsFixture 19)) ≤
      0.9977013 * 0.675815 :=
    mul_le_mul hE2 hB2 (by linarith) (by norm_num)
  have hp19lo : (0.9977012 : ℝ) * 0.675812 ≤
      Real.exp (-0.005 * (168 / 365)) * normCdf (d2 (bsFixture 19)) :=
    mul_le_mul hE1 hB1 (by norm_num) hEpos
  have hp17hi : Real.exp (-0.005 * (168 / 365)) * normCdf (d2 (bsFixture 17)) ≤
      0.9977013 * 0.463963 :=
    mul_le_mul hE2 hD2 (by linarith) (by norm_num)
  have hp17lo : (0.9977012 : ℝ) * 0.463961 ≤
      Real.exp (-0.005 * (168 / 365)) * normCdf (d2 (bsFixture 17)) :=
    mul_le_mul hE1 hD1 (by norm_num) hEpos
  have hp15hi : Real.exp (-0.005 * (168 / 365)) * normCdf (d2 (bsFixture 15)) ≤
      0.9977013 * 0.240287 :=
    mul_le_mul hE2 hG2 (by linarith) (by norm_num)
  have hp15lo : (0.9977012 : ℝ) * 0.240272 ≤
      Real.exp (-0.005 * (168 / 365)) * normCdf (d2 (bsFixture 15)) :=
    mul_le_mul hE1 hG1 (by norm_num) hEpos
  have hc19 := call_fixture_eq 19
  have hc17 := call_fixture_eq 17
  have hc15 := call_fixture_eq 15
  have hq19 := put_fixture_eq 19
  have hq17 := put_fixture_eq 17
  have hq15 := put_fixture_eq 15
  have hcall19lo : (19 : ℝ) * 0.745223 - 17 * (0.9977013 * 0.675815) ≤
      call_options (bsFixture 19) := by
    rw [hc19]; linarith [hp19hi, hA1]
  have hcall19hi : call_options (bsFixture 19) ≤
      19 * 0.745232 - 17 * (0.9977012 * 0.675812) := by
    rw [hc19]; linarith [hp19lo, hA2]
  have hcall17lo : (17 : ℝ) * 0.545013 - 17 * (0.9977013 * 0.463963) ≤
      call_options (bsFixture 17) := by
    rw [hc17]; linarith [hp17hi, hC1]
  have hcall17hi : call_options (bsFixture 17) ≤
      17 * 0.545014 - 17 * (0.9977012 * 0.463961) := by
    rw [hc17]; linarith [hp17lo, hC2]
  have hcall15lo : (15 : ℝ) * 0.307872 - 17 * (0.9977013 * 0.240287) ≤
      call_options (bsFixture 15) := by
    rw [hc15]; linarith [hp15hi, hF1]
  have hcall15hi : call_options (bsFixture 15) ≤
      15 * 0.307875 - 17 * (0.9977012 * 0.240272) := by
    rw [hc15]; linarith [hp15lo, hF2]
  refine ⟨?_, ?_, ?_, ?_, ?_, ?_⟩
  · rw [abs_le]
    constructor
    · linarith
    · linarith
  · rw [hq19, abs_le]
    constructor
    · linarith
    · linarith
  · rw [abs_le]
    constructor
    · linarith
    · linarith
  · rw [hq17, abs_le]
    constructor
    · linarith
    · linarith
  · rw [abs_le]
    constructor
    · linarith
    · linarith
  · rw [hq15, abs_le]
    constructor
    · linarith
    · linarith


end TradeRisk
